import Mathlib

/-!
Verification of the data pipeline of `src/dashboard.py` (Ren_Dashboard):
a shallow embedding of the loader/normalizer, the filter engine and the
aggregator, with theorems settling the specification's claims.

Pandas tables are embedded as Lean lists of records; nullable numeric
cells (`pd.NA` / `NaN`) are `Option ℚ`; nullable string cells are
`Option String`.  Dates are records of year/month/day; the total order
pandas puts on timestamps is embedded through `dateKey`.
-/

namespace Dashboard

/-- A calendar date, the result of a successful `pd.to_datetime`. -/
structure Date where
  year : Nat
  month : Nat
  day : Nat
deriving DecidableEq, Repr

/-- Numeric key embedding the calendar order on dates
(`YYYY*10000 + MM*100 + DD`), as used by the `Offer Date` comparisons. -/
def dateKey (d : Date) : Nat := d.year * 10000 + d.month * 100 + d.day

/-- Month abbreviation of `'%b %Y'` used by `df['Month'] = strftime('%b %Y')`. -/
def monthName (m : Nat) : String :=
  match m with
  | 1 => "Jan" | 2 => "Feb" | 3 => "Mar" | 4 => "Apr"
  | 5 => "May" | 6 => "Jun" | 7 => "Jul" | 8 => "Aug"
  | 9 => "Sep" | 10 => "Oct" | 11 => "Nov" | 12 => "Dec"
  | _ => "???"

/-- The `Month` label column: `df['Offer Date'].dt.strftime('%b %Y')`. -/
def monthLabel (d : Date) : String := monthName d.month ++ " " ++ toString d.year

/-- The `Year-Month` key column: `df['Offer Date'].dt.to_period('M').astype(str)`
gives the string `YYYY-MM`; for four-digit years its lexicographic order is
the numeric order of `year*100 + month`, which is what we embed. -/
def yearMonthKey (d : Date) : Nat := d.year * 100 + d.month

/-- One raw spreadsheet row after the column coercions of `load_data`:
`Offer Date` after `pd.to_datetime(..., errors='coerce')` (`none` = NaT),
the two CTC columns after `pd.to_numeric(..., errors='coerce')`
(`none` = NaN), and the `Status` and `Source` cells. -/
structure RawRow where
  offerDate : Option Date
  currentCTC : Option ℚ
  offeredCTC : Option ℚ
  status : String
  source : Option String
deriving DecidableEq, Repr

/-- Column `% Hike Calculated`: defined on the `valid` mask
(`current.notna() & offered.notna() & (current > 0)`) as
`(offered - current) / current * 100`, `pd.NA` elsewhere. -/
def hikeCalc (cur off : Option ℚ) : Option ℚ :=
  match cur, off with
  | some c, some o => if 0 < c then some ((o - c) / c * 100) else none
  | _, _ => none

/-- Function `ctc_bin` from `load_data`, applied to the `Offered (In Lacs)` cell
(`none` = NaN, hence `pd.isna`). -/
def ctc_bin (ctc : Option ℚ) : String :=
  match ctc with
  | none => "Unknown"
  | some c =>
    if c < 10 then "<10L"
    else if c < 20 then "10-20L"
    else if c < 30 then "20-30L"
    else "≥30L"

/-- List `internal_sources` from `load_data`. -/
def internal_sources : List String := ["Employee Referral", "Internal Sourcing", "Direct"]

/-- Column `Source Type`: `'Internal' if x in internal_sources else 'External'`;
a missing cell (NaN) is not in the list, so it classifies as External. -/
def sourceTypeOf (src : Option String) : String :=
  match src with
  | some s => if s ∈ internal_sources then "Internal" else "External"
  | none => "External"

/-- A normalized record: one row of the dataframe `load_data` returns,
original cells plus the derived columns. -/
structure OfferRow where
  offerDate : Date
  currentCTC : Option ℚ
  offeredCTC : Option ℚ
  status : String
  source : Option String
  month : String
  yearMonth : Nat
  hikePct : Option ℚ
  ctcBin : String
  sourceType : String
deriving DecidableEq, Repr

/-- Build the normalized record for a raw row whose date parsed to `d`. -/
def mkRow (d : Date) (r : RawRow) : OfferRow :=
  { offerDate := d
    currentCTC := r.currentCTC
    offeredCTC := r.offeredCTC
    status := r.status
    source := r.source
    month := monthLabel d
    yearMonth := yearMonthKey d
    hikePct := hikeCalc r.currentCTC r.offeredCTC
    ctcBin := ctc_bin r.offeredCTC
    sourceType := sourceTypeOf r.source }

/-- Loader `load_data`: drop rows whose `Offer Date` failed to parse
(`dropna(subset=['Offer Date'])`), derive the computed columns. -/
def load_data (raw : List RawRow) : List OfferRow :=
  raw.filterMap (fun r => r.offerDate.map (fun d => mkRow d r))

end Dashboard

namespace Dashboard

/-- C2: For every row, `% Hike Calculated` equals
`(offered - current) / current * 100` exactly when both CTC cells are numeric
and current CTC is positive, and is missing when current CTC is missing, is
zero or negative, or offered CTC is missing. -/
theorem hike_percent_spec (cur off : Option ℚ) :
    (∀ c o, cur = some c → off = some o → 0 < c →
      hikeCalc cur off = some ((o - c) / c * 100)) ∧
    (cur = none → hikeCalc cur off = none) ∧
    (∀ c, cur = some c → c ≤ 0 → hikeCalc cur off = none) ∧
    (off = none → hikeCalc cur off = none) := by
  refine ⟨?_, ?_, ?_, ?_⟩
  · rintro c o rfl rfl hc
    simp [hikeCalc, hc]
  · rintro rfl
    simp [hikeCalc]
  · rintro c rfl hc
    cases off with
    | none => simp [hikeCalc]
    | some o => simp [hikeCalc, not_lt.mpr hc]
  · rintro rfl
    cases cur with
    | none => simp [hikeCalc]
    | some c => simp [hikeCalc]

/-- Closed witness for `hike_percent_spec` at concrete inputs. -/
theorem hike_percent_spec_witness :
    hikeCalc (some 10) (some 13) = some 30 ∧
    hikeCalc (some 0) (some 10) = none ∧
    hikeCalc none (some 10) = none ∧
    hikeCalc (some 10) none = none := by
  refine ⟨?_, ?_, ?_, ?_⟩
  · have h := (hike_percent_spec (some 10) (some 13)).1 10 13 rfl rfl (by norm_num)
    rw [h]; norm_num
  · exact (hike_percent_spec (some 0) (some 10)).2.2.1 0 rfl le_rfl
  · exact (hike_percent_spec none (some 10)).2.1 rfl
  · exact (hike_percent_spec (some 10) none).2.2.2 rfl

/-- The five CTC bin labels. -/
def ctcBinLabels : List String := ["Unknown", "<10L", "10-20L", "20-30L", "≥30L"]

/-- C3: `ctc_bin` is an exhaustive partition into the five labels: every offered
CTC value maps into the label list, `Unknown` exactly when the value is
missing, and the numeric bins hold exactly on the half-open ranges
(lower bound inclusive, upper exclusive) with the top bin `≥30L` closed below
at 30. -/
theorem ctc_bin_partition (ctc : Option ℚ) :
    ctc_bin ctc ∈ ctcBinLabels ∧
    (ctc_bin ctc = "Unknown" ↔ ctc = none) ∧
    (∀ c, ctc = some c →
      ((ctc_bin ctc = "<10L" ↔ c < 10) ∧
       (ctc_bin ctc = "10-20L" ↔ 10 ≤ c ∧ c < 20) ∧
       (ctc_bin ctc = "20-30L" ↔ 20 ≤ c ∧ c < 30) ∧
       (ctc_bin ctc = "≥30L" ↔ 30 ≤ c))) := by
  cases ctc with
  | none => simp [ctc_bin, ctcBinLabels]
  | some c =>
    refine ⟨?_, ?_, ?_⟩
    · by_cases h1 : c < 10
      · simp [ctc_bin, ctcBinLabels, h1]
      · by_cases h2 : c < 20
        · simp [ctc_bin, ctcBinLabels, h1, h2]
        · by_cases h3 : c < 30
          · simp [ctc_bin, ctcBinLabels, h1, h2, h3]
          · simp [ctc_bin, ctcBinLabels, h1, h2, h3]
    · constructor
      · intro h
        exfalso
        by_cases h1 : c < 10
        · simp [ctc_bin, h1] at h
        · by_cases h2 : c < 20
          · simp [ctc_bin, h1, h2] at h
          · by_cases h3 : c < 30
            · simp [ctc_bin, h1, h2, h3] at h
            · simp [ctc_bin, h1, h2, h3] at h
      · intro h; exact absurd h (by simp)
    · rintro c' hc'
      injection hc' with hc'
      subst hc'
      by_cases h1 : c < 10
      · have hb : ctc_bin (some c) = "<10L" := by simp [ctc_bin, h1]
        rw [hb]
        refine ⟨⟨fun _ => h1, fun _ => rfl⟩, ?_, ?_, ?_⟩
        · constructor
          · intro h; exact absurd h (by decide)
          · intro h; exfalso; linarith [h.1]
        · constructor
          · intro h; exact absurd h (by decide)
          · intro h; exfalso; linarith [h.1]
        · constructor
          · intro h; exact absurd h (by decide)
          · intro h; exfalso; linarith
      · by_cases h2 : c < 20
        · have hb : ctc_bin (some c) = "10-20L" := by simp [ctc_bin, h1, h2]
          rw [hb]
          refine ⟨?_, ⟨fun _ => ⟨not_lt.mp h1, h2⟩, fun _ => rfl⟩, ?_, ?_⟩
          · constructor
            · intro h; exact absurd h (by decide)
            · intro h; exact absurd h1 (not_not_intro h)
          · constructor
            · intro h; exact absurd h (by decide)
            · intro h; exfalso; linarith [h.1]
          · constructor
            · intro h; exact absurd h (by decide)
            · intro h; exfalso; linarith
        · by_cases h3 : c < 30
          · have hb : ctc_bin (some c) = "20-30L" := by simp [ctc_bin, h1, h2, h3]
            rw [hb]
            refine ⟨?_, ?_, ⟨fun _ => ⟨not_lt.mp h2, h3⟩, fun _ => rfl⟩, ?_⟩
            · constructor
              · intro h; exact absurd h (by decide)
              · intro h; exact absurd h1 (not_not_intro h)
            · constructor
              · intro h; exact absurd h (by decide)
              · intro h; exact absurd h2 (not_not_intro h.2)
            · constructor
              · intro h; exact absurd h (by decide)
              · intro h; exfalso; linarith
          · have hb : ctc_bin (some c) = "≥30L" := by simp [ctc_bin, h1, h2, h3]
            rw [hb]
            refine ⟨?_, ?_, ?_, ⟨fun _ => not_lt.mp h3, fun _ => rfl⟩⟩
            · constructor
              · intro h; exact absurd h (by decide)
              · intro h; exact absurd h1 (not_not_intro h)
            · constructor
              · intro h; exact absurd h (by decide)
              · intro h; exact absurd h2 (not_not_intro h.2)
            · constructor
              · intro h; exact absurd h (by decide)
              · intro h; exact absurd h3 (not_not_intro h.2)

/-- Closed witness for `ctc_bin_partition`: the bin boundaries at a few
concrete offered-CTC values, via the theorem at `some 10`. -/
theorem ctc_bin_partition_witness :
    ctc_bin (some 10) = "10-20L" := by
  have h := ((ctc_bin_partition (some 10)).2.2 10 rfl).2.1
  exact h.mpr ⟨le_rfl, by norm_num⟩

/-- C4: `Source Type` is `Internal` iff the source cell is exactly one of the
three internal sources (case-sensitive string equality), `External` in every
other case including a missing cell, and no third value occurs. -/
theorem source_type_spec (src : Option String) :
    (sourceTypeOf src = "Internal" ↔
      src = some "Employee Referral" ∨ src = some "Internal Sourcing" ∨
      src = some "Direct") ∧
    (sourceTypeOf src = "Internal" ∨ sourceTypeOf src = "External") ∧
    (src = none → sourceTypeOf src = "External") := by
  refine ⟨?_, ?_, ?_⟩
  · cases src with
    | none => simp [sourceTypeOf]
    | some s =>
      by_cases h : s ∈ internal_sources
      · simp only [sourceTypeOf, if_pos h]
        simp only [internal_sources, List.mem_cons, List.mem_singleton,
          List.not_mem_nil, or_false] at h
        simp only [Option.some.injEq, true_iff]
        rcases h with h | h | h
        · exact Or.inl h
        · exact Or.inr (Or.inl h)
        · exact Or.inr (Or.inr h)
      · simp only [sourceTypeOf, if_neg h]
        simp only [internal_sources, List.mem_cons, List.mem_singleton,
          List.not_mem_nil, or_false, not_or] at h
        constructor
        · intro hfalse; exact absurd hfalse (by simp)
        · rintro (h' | h' | h') <;> injection h' with h' <;>
            [exact absurd h' h.1; exact absurd h' h.2.1; exact absurd h' h.2.2]
  · cases src with
    | none => simp [sourceTypeOf]
    | some s =>
      by_cases h : s ∈ internal_sources
      · exact Or.inl (by simp [sourceTypeOf, h])
      · exact Or.inr (by simp [sourceTypeOf, h])
  · rintro rfl; simp [sourceTypeOf]

/-- Closed witness for `source_type_spec`: the three internal sources map to
`Internal`, other values and the missing cell map to `External`. -/
theorem source_type_spec_witness :
    sourceTypeOf (some "Employee Referral") = "Internal" ∧
    sourceTypeOf (some "employee referral") = "External" ∧
    sourceTypeOf none = "External" := by
  refine ⟨?_, ?_, ?_⟩
  · exact (source_type_spec (some "Employee Referral")).1.mpr (Or.inl rfl)
  · rcases (source_type_spec (some "employee referral")).2.1 with h | h
    · exfalso
      rcases (source_type_spec (some "employee referral")).1.mp h with h' | h' | h' <;>
        simp at h'
    · exact h
  · exact (source_type_spec none).2.2 rfl

/-! ## Filter engine -/

/-- The `Date Range` branch: `date_range` is the tuple the date widget
returns; with exactly two bounds the rows are filtered to
`start_date <= Offer Date <= end_date` (both inclusive), any other length
falls back to the unfiltered frame (`df.copy()`). -/
def applyDateFilter (range : List Date) (rows : List OfferRow) : List OfferRow :=
  match range with
  | [s, e] => rows.filter (fun r =>
      decide (dateKey s ≤ dateKey r.offerDate) && decide (dateKey r.offerDate ≤ dateKey e))
  | _ => rows

/-- The `Select Months` branch:
`df[df['Month'].isin(selected_months)].copy() if selected_months else df.copy()`. -/
def applyMonthFilter (sel : List String) (rows : List OfferRow) : List OfferRow :=
  match sel with
  | [] => rows
  | _ => rows.filter (fun r => decide (r.month ∈ sel))

/-- Variable `all_months = sorted(df['Month'].unique())`. -/
def all_months (rows : List OfferRow) : List String :=
  List.insertionSort (· ≤ ·) (rows.map (·.month)).dedup

/-- Bound `df['Offer Date'].min()`: the earliest offer date of the table
(defaulted on the empty table, where pandas gives `NaT`). -/
def minDate : List OfferRow → Date
  | [] => ⟨1900, 1, 1⟩
  | [r] => r.offerDate
  | r :: r2 :: rs =>
    let m := minDate (r2 :: rs)
    if dateKey r.offerDate ≤ dateKey m then r.offerDate else m

/-- Bound `df['Offer Date'].max()`: the latest offer date of the table. -/
def maxDate : List OfferRow → Date
  | [] => ⟨1900, 1, 1⟩
  | [r] => r.offerDate
  | r :: r2 :: rs =>
    let m := maxDate (r2 :: rs)
    if dateKey m ≤ dateKey r.offerDate then r.offerDate else m

lemma applyDateFilter_sublist (range : List Date) (rows : List OfferRow) :
    List.Sublist (applyDateFilter range rows) rows := by
  rcases range with _ | ⟨s, _ | ⟨e, _ | _⟩⟩
  · exact List.Sublist.refl _
  · exact List.Sublist.refl _
  · exact List.filter_sublist _
  · exact List.Sublist.refl _

lemma applyMonthFilter_sublist (sel : List String) (rows : List OfferRow) :
    List.Sublist (applyMonthFilter sel rows) rows := by
  rcases sel with _ | ⟨m, ms⟩
  · exact List.Sublist.refl _
  · exact List.filter_sublist _

lemma minDate_le (rows : List OfferRow) :
    ∀ r ∈ rows, dateKey (minDate rows) ≤ dateKey r.offerDate := by
  induction rows with
  | nil => intro r hr; exact absurd hr (List.not_mem_nil r)
  | cons x xs ih =>
    intro r hr
    cases xs with
    | nil =>
      have : r = x := by simpa using hr
      subst this
      exact le_rfl
    | cons y ys =>
      rcases List.mem_cons.mp hr with rfl | hr'
      · show dateKey (minDate (r :: y :: ys)) ≤ dateKey r.offerDate
        simp only [minDate]
        split
        · exact le_rfl
        · next h => exact le_of_not_le h
      · have hrec := ih r hr'
        show dateKey (minDate (x :: y :: ys)) ≤ dateKey r.offerDate
        simp only [minDate]
        split
        · next h => exact le_trans h hrec
        · exact hrec

lemma le_maxDate (rows : List OfferRow) :
    ∀ r ∈ rows, dateKey r.offerDate ≤ dateKey (maxDate rows) := by
  induction rows with
  | nil => intro r hr; exact absurd hr (List.not_mem_nil r)
  | cons x xs ih =>
    intro r hr
    cases xs with
    | nil =>
      have : r = x := by simpa using hr
      subst this
      exact le_rfl
    | cons y ys =>
      rcases List.mem_cons.mp hr with rfl | hr'
      · show dateKey r.offerDate ≤ dateKey (maxDate (r :: y :: ys))
        simp only [maxDate]
        split
        · exact le_rfl
        · next h => exact le_of_not_le h
      · have hrec := ih r hr'
        show dateKey r.offerDate ≤ dateKey (maxDate (x :: y :: ys))
        simp only [maxDate]
        split
        · next h => exact le_trans hrec h
        · exact hrec

/-- C5: filtering is the identity in the degenerate cases. Selecting the full
month set, or the full date range from the minimum to the maximum offer date
(bounds inclusive), returns the unfiltered table; a date range that is not a
pair of bounds, or an empty month selection, falls back to the unfiltered
table; and for any parameters either filter returns a sublist of the input,
preserving row order. -/
theorem filter_degenerate_identity (rows : List OfferRow) (d : Date) (_hne : rows ≠ []) :
    applyMonthFilter (all_months rows) rows = rows ∧
    applyDateFilter [minDate rows, maxDate rows] rows = rows ∧
    applyDateFilter [d] rows = rows ∧
    applyMonthFilter [] rows = rows ∧
    (∀ range sel, List.Sublist (applyDateFilter range rows) rows ∧
      List.Sublist (applyMonthFilter sel rows) rows) := by
  refine ⟨?_, ?_, rfl, rfl, ?_⟩
  · have hmem : ∀ r ∈ rows, (decide (r.month ∈ all_months rows)) = true := by
      intro r hr
      apply decide_eq_true
      have h1 : r.month ∈ (rows.map (·.month)).dedup :=
        List.mem_dedup.mpr (List.mem_map_of_mem _ hr)
      exact ((List.perm_insertionSort (· ≤ ·) _).mem_iff).mpr h1
    cases hall : all_months rows with
    | nil => simp [applyMonthFilter]
    | cons m ms =>
      show List.filter _ rows = rows
      apply List.filter_eq_self.mpr
      intro r hr
      have := hmem r hr
      rw [hall] at this
      exact this
  · show List.filter _ rows = rows
    apply List.filter_eq_self.mpr
    intro r hr
    rw [Bool.and_eq_true]
    exact ⟨decide_eq_true (minDate_le rows r hr), decide_eq_true (le_maxDate rows r hr)⟩
  · intro range sel
    exact ⟨applyDateFilter_sublist range rows, applyMonthFilter_sublist sel rows⟩

/-- A concrete raw row (date 2025-01-15, CTC 10 → 13, joined, referral). -/
def sampleRaw : RawRow :=
  { offerDate := some ⟨2025, 1, 15⟩
    currentCTC := some 10
    offeredCTC := some 13
    status := "Joined"
    source := some "Employee Referral" }

/-- The normalized table loaded from the one-row sample sheet. -/
def sampleRows : List OfferRow := load_data [sampleRaw]

/-- Closed witness for `filter_degenerate_identity` on the concrete
one-row table. -/
theorem filter_degenerate_identity_witness :
    sampleRows ≠ [] ∧
    applyDateFilter [minDate sampleRows, maxDate sampleRows] sampleRows = sampleRows ∧
    applyDateFilter [⟨2025, 1, 1⟩] sampleRows = sampleRows :=
  ⟨by decide,
   (filter_degenerate_identity sampleRows ⟨2025, 1, 1⟩ (by decide)).2.1,
   (filter_degenerate_identity sampleRows ⟨2025, 1, 1⟩ (by decide)).2.2.1⟩

/-! ## Aggregator: KPIs -/

/-- KPI `total_offers = len(df_filtered)`. -/
def total_offers (rows : List OfferRow) : Nat := rows.length

/-- KPI `joined = len(df_filtered[df_filtered['Status'] == 'Joined'])`. -/
def joinedCount (rows : List OfferRow) : Nat :=
  (rows.filter (fun r => decide (r.status = "Joined"))).length

/-- KPI `join_rate = (joined / total_offers * 100) if total_offers > 0 else 0`. -/
def join_rate (rows : List OfferRow) : ℚ :=
  if 0 < rows.length then (joinedCount rows : ℚ) / (rows.length : ℚ) * 100 else 0

/-- Series `df_filtered['% Hike Calculated'].dropna()`: the non-missing hike values,
in row order. -/
def hikeVals (rows : List OfferRow) : List ℚ := rows.filterMap (·.hikePct)

/-- KPI `avg_hike = df_filtered['% Hike Calculated'].mean()`: pandas skips NA
cells and yields NaN (here `none`) when no value remains. -/
def avg_hike (rows : List OfferRow) : Option ℚ :=
  match hikeVals rows with
  | [] => none
  | v :: vs => some (((v :: vs).sum) / ((v :: vs).length : ℚ))

/-- The `Avg % Hike` metric text:
`f"{avg_hike:.1f}%" if pd.notna(avg_hike) else "—"` (the numeric
formatting itself is presentation; what matters is `"—"` versus a number). -/
def avg_hike_display (rows : List OfferRow) : String :=
  match avg_hike rows with
  | none => "—"
  | some v => toString v ++ "%"

/-- KPI `hike_30_plus = len(df_filtered[df_filtered['% Hike Calculated'] >= 30])`:
a missing hike does not satisfy the comparison. -/
def hike_30_plus (rows : List OfferRow) : Nat :=
  (rows.filter (fun r =>
    match r.hikePct with
    | some h => decide (30 ≤ h)
    | none => false)).length

/-- KPI `internal_count = len(df_filtered[df_filtered['Source Type'] == 'Internal'])`. -/
def internal_count (rows : List OfferRow) : Nat :=
  (rows.filter (fun r => decide (r.sourceType = "Internal"))).length

/-- KPI `external_count = len(df_filtered[df_filtered['Source Type'] == 'External'])`. -/
def external_count (rows : List OfferRow) : Nat :=
  (rows.filter (fun r => decide (r.sourceType = "External"))).length

/-- C6: on the empty filtered set the join-rate KPI is exactly `0`; when every
hike value of the filtered set is missing (the empty set included) the mean
hike is undefined and displayed as `"—"`, not `0`; in general the join rate is
`joined / total * 100` and the mean hike is the arithmetic mean of the
non-missing hike values. -/
theorem kpi_empty_spec (rows : List OfferRow) :
    join_rate [] = 0 ∧
    avg_hike [] = none ∧ avg_hike_display [] = "—" ∧
    ((∀ r ∈ rows, r.hikePct = none) →
      avg_hike rows = none ∧ avg_hike_display rows = "—") ∧
    (0 < total_offers rows →
      join_rate rows = (joinedCount rows : ℚ) / (total_offers rows : ℚ) * 100) ∧
    (hikeVals rows ≠ [] →
      avg_hike rows = some ((hikeVals rows).sum / ((hikeVals rows).length : ℚ))) := by
  refine ⟨rfl, rfl, rfl, ?_, ?_, ?_⟩
  · intro hall
    have hnil : hikeVals rows = [] := by
      apply List.filterMap_eq_nil_iff.mpr
      intro r hr
      exact hall r hr
    constructor
    · simp only [avg_hike, hnil]
    · simp only [avg_hike_display, avg_hike, hnil]
  · intro hpos
    simp only [join_rate, total_offers] at hpos ⊢
    rw [if_pos hpos]
  · intro hne
    rcases hv : hikeVals rows with _ | ⟨v, vs⟩
    · exact absurd hv hne
    · simp only [avg_hike, hv]

/-- A raw row whose hike cannot be computed: current CTC is zero. -/
def zeroCtcRaw : RawRow :=
  { offerDate := some ⟨2025, 2, 1⟩
    currentCTC := some 0
    offeredCTC := some 10
    status := "Declined"
    source := none }

/-- Closed witness for `kpi_empty_spec`: a one-row table whose hike is
missing (current CTC is zero) has an undefined mean hike displayed `"—"`, and
a one-row joined table has join rate `joined/total*100`. -/
theorem kpi_empty_spec_witness :
    avg_hike_display (load_data [zeroCtcRaw]) = "—" ∧
    join_rate sampleRows = (joinedCount sampleRows : ℚ) / (total_offers sampleRows : ℚ) * 100 ∧
    avg_hike sampleRows = some ((hikeVals sampleRows).sum / ((hikeVals sampleRows).length : ℚ)) :=
  ⟨((kpi_empty_spec (load_data [zeroCtcRaw])).2.2.2.1 (by decide)).2,
   (kpi_empty_spec sampleRows).2.2.2.2.1 (by decide),
   (kpi_empty_spec sampleRows).2.2.2.2.2 (by decide)⟩

/-! ## Aggregator: hike histogram -/

/-- The fixed histogram labels, in the order of `labels = [...]` and the
`reindex(labels, fill_value=0)`. -/
def hikeLabels : List String := ["<0%", "0-15%", "15-30%", "30-50%", ">50%"]

/-- The bin of one hike value under
`pd.cut(hike_data, bins=[-inf, 0, 15, 30, 50, inf], labels=labels)`:
`pd.cut` intervals are open below and closed above (`right=True`). -/
def hikeBinLabel (h : ℚ) : String :=
  if h ≤ 0 then "<0%"
  else if h ≤ 15 then "0-15%"
  else if h ≤ 30 then "15-30%"
  else if h ≤ 50 then "30-50%"
  else ">50%"

/-- Counts `hike_counts = hike_binned.value_counts().reindex(labels, fill_value=0)`:
one count per label, in the fixed label order, `0` for an empty bin. -/
def hike_counts (rows : List OfferRow) : List (String × Nat) :=
  hikeLabels.map (fun l =>
    (l, ((hikeVals rows).filter (fun h => decide (hikeBinLabel h = l))).length))

lemma hikeBinLabel_mem (h : ℚ) : hikeBinLabel h ∈ hikeLabels := by
  by_cases h0 : h ≤ 0
  · simp [hikeBinLabel, hikeLabels, h0]
  · by_cases h15 : h ≤ 15
    · simp [hikeBinLabel, hikeLabels, h0, h15]
    · by_cases h30 : h ≤ 30
      · simp [hikeBinLabel, hikeLabels, h0, h15, h30]
      · by_cases h50 : h ≤ 50
        · simp [hikeBinLabel, hikeLabels, h0, h15, h30, h50]
        · simp [hikeBinLabel, hikeLabels, h0, h15, h30, h50]

lemma sum_map_add {α : Type} (l : List α) (f g : α → Nat) :
    (l.map (fun x => f x + g x)).sum = (l.map f).sum + (l.map g).sum := by
  induction l with
  | nil => simp
  | cons x xs ih =>
    simp only [List.map_cons, List.sum_cons, ih]
    omega

lemma sum_indicator_zero {β : Type} [DecidableEq β] (labels : List β) (x : β)
    (hx : x ∉ labels) :
    (labels.map (fun l => if x = l then 1 else 0)).sum = 0 := by
  induction labels with
  | nil => simp
  | cons l ls ih =>
    simp only [List.map_cons, List.sum_cons]
    have h1 : x ≠ l := by
      intro h; subst h; exact hx (List.mem_cons_self x ls)
    have h2 : x ∉ ls := fun h => hx (List.mem_cons_of_mem l h)
    rw [if_neg h1, ih h2]

lemma sum_indicator_one {β : Type} [DecidableEq β] (labels : List β) (x : β)
    (hnd : labels.Nodup) (hx : x ∈ labels) :
    (labels.map (fun l => if x = l then 1 else 0)).sum = 1 := by
  induction labels with
  | nil => exact absurd hx (List.not_mem_nil x)
  | cons l ls ih =>
    simp only [List.map_cons, List.sum_cons]
    rcases List.mem_cons.mp hx with rfl | hx'
    · rw [if_pos rfl, sum_indicator_zero ls x (List.nodup_cons.mp hnd).1]
    · have hne : x ≠ l := fun h => (List.nodup_cons.mp hnd).1 (h ▸ hx')
      rw [if_neg hne, ih (List.nodup_cons.mp hnd).2 hx']

lemma partition_length {α β : Type} [DecidableEq β] (f : α → β) (labels : List β)
    (hnd : labels.Nodup) (hf : ∀ a, f a ∈ labels) (vs : List α) :
    (labels.map (fun l => (vs.filter (fun a => decide (f a = l))).length)).sum
      = vs.length := by
  induction vs with
  | nil => simp
  | cons v t ih =>
    have hstep :
        labels.map (fun l => ((v :: t).filter (fun a => decide (f a = l))).length)
          = labels.map (fun l =>
              (if f v = l then 1 else 0)
                + (t.filter (fun a => decide (f a = l))).length) := by
      apply List.map_congr_left
      intro l _
      by_cases hv : f v = l
      · simp [List.filter_cons, hv]
        omega
      · simp [List.filter_cons, hv]
    rw [hstep, sum_map_add, sum_indicator_one labels (f v) hnd (hf v), ih]
    simp only [List.length_cons]
    omega

/-- C7: the hike histogram over the filtered set always reports exactly the
five fixed labels `<0%, 0-15%, 15-30%, 30-50%, >50%` in exactly this order
(an empty bin contributing its `(label, 0)` entry), every non-missing hike
value falls in a bin of the label list, and the bin counts add up to the
number of non-missing hike values — each value is counted in exactly one
bin. -/
theorem hike_histogram_spec (rows : List OfferRow) :
    (hike_counts rows).map Prod.fst = hikeLabels ∧
    (∀ h : ℚ, hikeBinLabel h ∈ hikeLabels) ∧
    ((hike_counts rows).map Prod.snd).sum = (hikeVals rows).length := by
  refine ⟨?_, hikeBinLabel_mem, ?_⟩
  · have hcomp : (Prod.fst ∘ fun l : String =>
        (l, ((hikeVals rows).filter (fun h => decide (hikeBinLabel h = l))).length))
          = id := rfl
    rw [hike_counts, List.map_map, hcomp, List.map_id]
  · have hmap : (hike_counts rows).map Prod.snd
        = hikeLabels.map (fun l =>
            ((hikeVals rows).filter (fun h => decide (hikeBinLabel h = l))).length) := by
      simp [hike_counts, List.map_map, Function.comp]
    rw [hmap]
    exact partition_length hikeBinLabel hikeLabels (by decide) hikeBinLabel_mem
      (hikeVals rows)

/-- C10: `pd.cut` bins are open below and closed above, so a hike of exactly
`0` lands in the `<0%` bin, exactly `15` in `0-15%`, and exactly `30` in
`15-30%` (not `30-50%`); the separate `Hike ≥30%` KPI nevertheless counts a
row whose hike is exactly `30`, whose value also enters the histogram input. -/
theorem hike_boundary_vs_kpi (rows : List OfferRow) (r : OfferRow)
    (hr : r ∈ rows) (h30 : r.hikePct = some 30) :
    hikeBinLabel 0 = "<0%" ∧
    hikeBinLabel 15 = "0-15%" ∧
    hikeBinLabel 30 = "15-30%" ∧
    hikeBinLabel 30 ≠ "30-50%" ∧
    0 < hike_30_plus rows ∧
    (30 : ℚ) ∈ hikeVals rows := by
  have hb30 : hikeBinLabel 30 = "15-30%" := by norm_num [hikeBinLabel]
  refine ⟨by norm_num [hikeBinLabel], by norm_num [hikeBinLabel],
    hb30, by rw [hb30]; decide, ?_, ?_⟩
  · have hmem : r ∈ rows.filter (fun r =>
        match r.hikePct with
        | some h => decide (30 ≤ h)
        | none => false) := by
      apply List.mem_filter.mpr
      refine ⟨hr, ?_⟩
      rw [h30]
      simp
    unfold hike_30_plus
    exact List.length_pos.mpr (List.ne_nil_of_mem hmem)
  · exact List.mem_filterMap.mpr ⟨r, hr, h30⟩

/-- Closed witness for `hike_boundary_vs_kpi`: the sample row has current CTC
10 and offered 13, hence hike exactly 30; it is counted by the `Hike ≥30%`
KPI while `30` bins to `15-30%`. -/
theorem hike_boundary_vs_kpi_witness :
    hikeBinLabel 30 = "15-30%" ∧
    hikeBinLabel 30 ≠ "30-50%" ∧
    0 < hike_30_plus sampleRows :=
  have hmem : mkRow ⟨2025, 1, 15⟩ sampleRaw ∈ sampleRows :=
    List.mem_singleton_self (mkRow ⟨2025, 1, 15⟩ sampleRaw)
  have h30 : (mkRow ⟨2025, 1, 15⟩ sampleRaw).hikePct = some 30 := by
    norm_num [mkRow, sampleRaw, hikeCalc]
  ⟨(hike_boundary_vs_kpi sampleRows (mkRow ⟨2025, 1, 15⟩ sampleRaw) hmem h30).2.2.1,
   (hike_boundary_vs_kpi sampleRows (mkRow ⟨2025, 1, 15⟩ sampleRaw) hmem h30).2.2.2.1,
   (hike_boundary_vs_kpi sampleRows (mkRow ⟨2025, 1, 15⟩ sampleRaw) hmem h30).2.2.2.2.1⟩

/-! ## Filter application as a state transformation -/

/-- The parameters of the sidebar's two mutually exclusive filter modes. -/
inductive FilterParams where
  | dateRange (range : List Date)
  | monthSet (sel : List String)

/-- Run one filter mode over a table. -/
def runFilter : FilterParams → List OfferRow → List OfferRow
  | FilterParams.dateRange range, rows => applyDateFilter range rows
  | FilterParams.monthSet sel, rows => applyMonthFilter sel rows

/-- The dashboard's data state: the base normalized table `df` and the
derived `df_filtered`. -/
structure DashState where
  base : List OfferRow
  filtered : List OfferRow

/-- One filter interaction: recompute `df_filtered` from `df`
(`df_filtered = df[...].copy()`); the base table is only read. -/
def applyFilter (p : FilterParams) (s : DashState) : DashState :=
  { base := s.base, filtered := runFilter p s.base }

lemma runFilter_sublist (p : FilterParams) (rows : List OfferRow) :
    List.Sublist (runFilter p rows) rows := by
  cases p with
  | dateRange range => exact applyDateFilter_sublist range rows
  | monthSet sel => exact applyMonthFilter_sublist sel rows

/-- C9: applying either filter mode with any parameters leaves the base
normalized table unchanged — same rows, same values, same order — and the
filtered result is a copy derived from the base table (a sublist of it,
computed by `runFilter`, not a mutation of `df`). -/
theorem filter_never_mutates_base (p : FilterParams) (s : DashState) :
    (applyFilter p s).base = s.base ∧
    (applyFilter p s).filtered = runFilter p s.base ∧
    List.Sublist (applyFilter p s).filtered s.base := by
  exact ⟨rfl, rfl, runFilter_sublist p s.base⟩

/-! ## Aggregator: full historical trend -/

/-- Table `full_trend`: `df.groupby('Year-Month').agg({'Offer Date': 'count',
'Status': lambda x: (x == 'Joined').sum()}).reset_index()` then
`sort_values('Month')` — one row per distinct year-month key of the
unfiltered table, with the group size and the joined count, rows ordered by
key ascending (the lexicographic order of `YYYY-MM` strings is the numeric
order of the embedded keys). -/
def full_trend (rows : List OfferRow) : List (Nat × Nat × Nat) :=
  (List.insertionSort (· ≤ ·) (rows.map (·.yearMonth)).dedup).map
    (fun k => (k,
      (rows.filter (fun r => decide (r.yearMonth = k))).length,
      (rows.filter (fun r => decide (r.yearMonth = k ∧ r.status = "Joined"))).length))

/-- C8: the full-history monthly trend is computed from the unfiltered
table — applying either filter mode with any parameters does not change it —
and for every year-month key present in the data it contains the row with
that key's total offer count and joined count, the rows being sorted by
year-month key ascending. -/
theorem full_trend_spec (rows : List OfferRow) (k : Nat)
    (hk : k ∈ rows.map (·.yearMonth)) :
    List.Sorted (· ≤ ·) ((full_trend rows).map (fun e => e.1)) ∧
    (k, (rows.filter (fun r => decide (r.yearMonth = k))).length,
        (rows.filter (fun r => decide (r.yearMonth = k ∧ r.status = "Joined"))).length)
      ∈ full_trend rows ∧
    (∀ (p : FilterParams) (s : DashState),
      full_trend (applyFilter p s).base = full_trend s.base) := by
  refine ⟨?_, ?_, fun p s => rfl⟩
  · have hcomp : ((fun e : Nat × Nat × Nat => e.1) ∘ fun k =>
        ((k : Nat),
         (rows.filter (fun r => decide (r.yearMonth = k))).length,
         (rows.filter (fun r => decide (r.yearMonth = k ∧ r.status = "Joined"))).length))
          = id := rfl
    rw [full_trend, List.map_map, hcomp, List.map_id]
    exact List.sorted_insertionSort _ _
  · have hmem : k ∈ List.insertionSort (· ≤ ·) (rows.map (·.yearMonth)).dedup :=
      ((List.perm_insertionSort (· ≤ ·) _).mem_iff).mpr (List.mem_dedup.mpr hk)
    exact List.mem_map_of_mem _ hmem

/-- Closed witness for `full_trend_spec`: the sample table's single
year-month key `2025 * 100 + 1` appears in its trend with counts `1` and `1`. -/
theorem full_trend_spec_witness :
    List.Sorted (· ≤ ·) ((full_trend sampleRows).map (fun e => e.1)) ∧
    (202501,
     (sampleRows.filter (fun r => decide (r.yearMonth = 202501))).length,
     (sampleRows.filter (fun r => decide (r.yearMonth = 202501 ∧ r.status = "Joined"))).length)
      ∈ full_trend sampleRows :=
  ⟨(full_trend_spec sampleRows 202501 (by decide)).1,
   (full_trend_spec sampleRows 202501 (by decide)).2.1⟩

/-! ## The module top level: name binding around the filter section -/

/-- The names the module's top level has bound by the time the period-filter
section runs (source lines 1–96): the imports, the `load_data` definition,
the `uploaded_file` widget value and the `filter_type` radio value.  No
statement `df = load_data(...)` exists anywhere in the file, so `df` is
absent. -/
def namesBoundBeforeFilterSection : List String :=
  ["st", "pd", "px", "go", "datetime", "load_data", "uploaded_file", "filter_type"]

/-- The free names the filter section evaluates after the upload check passes
(source lines 98–124): both branches read the normalized table `df`
(`df['Offer Date']`, `df['Month']`). -/
def namesReadByFilterSection : List String := ["st", "filter_type", "df"]

/-- C1 fails on the code: the filter section (and every aggregate after it)
reads the table `df`, but the module top level never binds `df` — `load_data`
is defined (twice-decorated with `st.cache_data`) yet never called — so after
the upload check passes the very first filter expression evaluates an
undefined reference (`NameError: name 'df' is not defined`) instead of
recomputing from the cached normalized table. -/
theorem df_unbound_at_filter_section :
    "df" ∈ namesReadByFilterSection ∧ "df" ∉ namesBoundBeforeFilterSection := by
  decide

end Dashboard
